import Mathlib

/-!
Shallow embedding of the MissionMaster application (src/index.tsx): the
domain data model, the event handlers of the `App` component, and the
reward-tier evaluator of the `StickerBoard` component, together with
theorems settling the specification's claims about them.

Conventions of the embedding:
* machine numbers (`Date.now()` timestamps, counters, thresholds) are `Nat`;
* `localStorage` values that a handler reads or writes are fields of
  `AppState` (`storedPin` models the value under `PIN_KEY`);
* the clock is passed explicitly (`today`, `now`, `nowMonthId`) where a
  handler calls `getTodayStr` / `Date.now()` / `getCurrentMonthId`;
* `confirm(...)` dialogs are an explicit boolean argument;
* JS `Number(s)` is modelled for strings of decimal digits only
  (`parseDigits`), which covers every value the claims touch.
-/

namespace MissionMaster

/-- `type MissionStatus = 'pending' | 'active' | 'completed'` (line 48). -/
inductive MissionStatus where
  | pending
  | active
  | completed
deriving DecidableEq

/-- `type StickerType = 'medal' | 'star' | 'heart' | 'rocket' | 'crown'` (line 49). -/
inductive StickerType where
  | medal
  | star
  | heart
  | rocket
  | crown
deriving DecidableEq

/-- `type PinChangeStep = 'none' | 'current' | 'new' | 'verify' | 'confirm'` (line 50). -/
inductive PinChangeStep where
  | none
  | current
  | new
  | verify
  | confirm
deriving DecidableEq

/-- The `mode` state of `App` (line 406). -/
inductive Mode where
  | child
  | parent
  | auth
  | archives
  | timeWarpAuth
deriving DecidableEq

/-- `interface Mission` (lines 52-60). -/
structure Mission where
  id : String
  title : String
  durationMinutes : Nat
  reward : String
  status : MissionStatus
  createdAt : Nat
  completedAt : Option Nat
deriving DecidableEq

/-- `interface RewardStep` (lines 62-65). -/
structure RewardStep where
  stickers : Nat
  text : String
deriving DecidableEq

/-- `'currency' | 'text'`, the `type` field of `RewardConfig` (line 68). -/
inductive RewardType where
  | currency
  | text
deriving DecidableEq

/-- `interface RewardConfig` (lines 67-70). -/
structure RewardConfig where
  type : RewardType
  steps : List RewardStep
deriving DecidableEq

/-- `interface StickerDay` (lines 78-83). -/
structure StickerDay where
  date : String
  count : Nat
  isBonusUsed : Option Bool
  stickerType : Option StickerType
deriving DecidableEq

/-- `interface MissionLog` (lines 85-88). -/
structure MissionLog where
  date : String
  title : String
deriving DecidableEq

/-- `interface ArchiveEntry` (lines 95-100). -/
structure ArchiveEntry where
  monthId : String
  stickers : List StickerDay
  totalStickers : Nat
  archivedAt : Nat
deriving DecidableEq

/-- `const DEFAULT_PIN = '1234'` (line 113). -/
def DEFAULT_PIN : String := "1234"

/-- The state of the `App` component that the claims' handlers read and
mutate (lines 406-430), plus `storedPin`, the `localStorage` value under
`PIN_KEY` (line 102; `Option.none` = key absent). -/
structure AppState where
  mode : Mode
  pinInput : String
  missions : List Mission
  stickers : List StickerDay
  bonusStickers : Nat
  archives : List ArchiveEntry
  currentMonthId : String
  activeMissionId : Option String
  missionLogs : List MissionLog
  pinChangeStep : PinChangeStep
  tempNewPin : String
  storedPin : Option String
deriving DecidableEq

/-! ## String and date utilities -/

/-- The numeric value of a decimal digit character, else `Option.none`. -/
def digitVal (c : Char) : Option Nat :=
  if '0' ≤ c ∧ c ≤ '9' then some (c.toNat - '0'.toNat) else none

/-- Accumulator loop for `parseDigits`. -/
def parseDigitsAux : List Char → Nat → Option Nat
  | [], acc => some acc
  | c :: cs, acc =>
    match digitVal c with
    | some d => parseDigitsAux cs (acc * 10 + d)
    | Option.none => Option.none

/-- JS `Number(s)` restricted to strings of decimal digits: `some` of the
value when every character is a digit (`Number('') = 0`, so `[] ↦ some 0`),
`none` when some character is not a digit (JS `NaN`). -/
def parseDigits (cs : List Char) : Option Nat :=
  parseDigitsAux cs 0

/-- Split a character list at `'-'` separators, modelling
`String.split('-')` as used on month ids (line 592). -/
def splitOnDash : List Char → List (List Char)
  | [] => [[]]
  | c :: cs =>
    let r := splitOnDash cs
    if c = '-' then [] :: r
    else
      match r with
      | [] => [[c]]
      | g :: gs => (c :: g) :: gs

/-- `currentMonthId.split('-').map(Number)` giving `[y, m]` (line 592). -/
def parseMonthId (mid : String) : Nat × Nat :=
  match (splitOnDash mid.toList).map parseDigits with
  | y :: m :: _ => (y.getD 0, m.getD 0)
  | _ => (0, 0)

/-- `String(n).padStart(2, '0')` for a natural number. -/
def pad2 (n : Nat) : String :=
  if n < 10 then "0" ++ toString n else toString n

/-- The day string `` `${y}-${pad2 m}-${pad2 d}` `` built by the bonus
gap-fill loop (line 596) and the board (line 287). -/
def dateStr (y m d : Nat) : String :=
  toString y ++ "-" ++ pad2 m ++ "-" ++ pad2 d

/-- Gregorian leap-year rule, as implemented by JS `Date`. -/
def isLeapYear (y : Nat) : Bool :=
  (y % 4 = 0 && y % 100 ≠ 0) || y % 400 = 0

/-- `new Date(y, m, 0).getDate()`: the number of days of the 1-based month
`m` of year `y` (lines 282 and 595), for `1 ≤ m ≤ 12`. -/
def daysInMonth (y m : Nat) : Nat :=
  if m = 1 ∨ m = 3 ∨ m = 5 ∨ m = 7 ∨ m = 8 ∨ m = 10 ∨ m = 12 then 31
  else if m = 4 ∨ m = 6 ∨ m = 9 ∨ m = 11 then 30
  else if m = 2 then (if isLeapYear y then 29 else 28)
  else 0

/-- The ascending list `[start, start+1, ..., start+n-1]`, the index range of
the `for` loops over calendar days. -/
def daysFrom (start : Nat) : Nat → List Nat
  | 0 => []
  | n + 1 => start :: daysFrom (start + 1) n

/-! ## Reward tier evaluator (`getCurrentReward`, lines 302-316) -/

/-- The sentinel `"설정 전"` returned for an empty step list (line 303). -/
def notConfigured : String := "설정 전"

/-- Insert a step into a list already sorted by descending threshold,
placing it after every earlier step of ≥ threshold: together with
`sortStepsDesc` this models the stable JS
`sort((a, b) => b.stickers - a.stickers)` (line 305). -/
def insertDesc (e : RewardStep) : List RewardStep → List RewardStep
  | [] => [e]
  | x :: xs => if x.stickers < e.stickers then e :: x :: xs else x :: insertDesc e xs

/-- Stable sort of the reward steps by descending `stickers` threshold. -/
def sortStepsDesc (l : List RewardStep) : List RewardStep :=
  l.foldr insertDesc []

/-- `!isNaN(Number(current))` for digit-strings (line 312). -/
def isNumericStr (s : String) : Bool :=
  (parseDigits s.toList).isSome

/-- Thousands grouping of a reversed digit list: `p` counts digits already
emitted, and a `','` precedes every digit at a positive multiple of 3. -/
def groupRevAux : List Char → Nat → List Char
  | [], _ => []
  | c :: cs, p =>
    if p ≠ 0 ∧ p % 3 = 0 then ',' :: c :: groupRevAux cs (p + 1)
    else c :: groupRevAux cs (p + 1)

/-- `Number(n).toLocaleString()`: decimal digits with thousands commas. -/
def localeString (n : Nat) : String :=
  String.mk ((groupRevAux (toString n).toList.reverse 0).reverse)

/-- `` `₩${Number(current).toLocaleString()}` `` (line 313). -/
def formatCurrency (t : String) : String :=
  "₩" ++ localeString ((parseDigits t.toList).getD 0)

/-- The selection loop of `getCurrentReward` (lines 304-311): the text of
the first step of the descending-sorted list whose threshold is ≤ the
total, defaulting to `steps[0]?.text || '0'` when none qualifies. -/
def selectText (totalStickers : Nat) (cfg : RewardConfig) : String :=
  match (sortStepsDesc cfg.steps).find? (fun st => decide (st.stickers ≤ totalStickers)) with
  | some st => st.text
  | Option.none =>
    match cfg.steps with
    | [] => "0"
    | s0 :: _ => if s0.text = "" then "0" else s0.text

/-- `getCurrentReward` of `StickerBoard` (lines 302-316), as a function of
the cumulative sticker count and the reward configuration: empty steps ↦
the sentinel; otherwise the selected tier text, which a `currency` config
formats as currency when it is numeric. -/
def getCurrentReward (totalStickers : Nat) (cfg : RewardConfig) : String :=
  if cfg.steps.length = 0 then notConfigured
  else if cfg.type = RewardType.currency ∧ isNumericStr (selectText totalStickers cfg) then
    formatCurrency (selectText totalStickers cfg)
  else selectText totalStickers cfg

/-! ## Event handlers of `App` -/

/-- Sum of the `count` fields,
`stickers.reduce((acc, s) => acc + s.count, 0)` (line 540). -/
def sumCounts (l : List StickerDay) : Nat :=
  l.foldl (fun acc e => acc + e.count) 0

/-- `handleStartNewMonth` (lines 535-551): when the user confirms, prepend
the snapshot of the current board to the archives, switch to the month id of
the current date (`nowMonthId` models `getCurrentMonthId()`, `now` models
`Date.now()`), and clear the sticker board and the mission logs. -/
def handleStartNewMonth (confirmAns : Bool) (nowMonthId : String) (now : Nat)
    (s : AppState) : AppState :=
  if confirmAns then
    { s with
      archives :=
        { monthId := s.currentMonthId, stickers := s.stickers,
          totalStickers := sumCounts s.stickers, archivedAt := now } :: s.archives,
      currentMonthId := nowMonthId,
      stickers := [],
      missionLogs := [] }
  else s

/-- `handleDeleteMission` (line 559): `missions.filter(m => m.id !== id)`. -/
def handleDeleteMission (id : String) (s : AppState) : AppState :=
  { s with missions := s.missions.filter (fun m => decide (m.id ≠ id)) }

/-- `handleStartMission` (lines 561-564): mark the mission with this id
`active` and point `activeMissionId` at it, with no guard of any kind. -/
def handleStartMission (id : String) (s : AppState) : AppState :=
  { s with
    missions := s.missions.map
      (fun m => if m.id = id then { m with status := MissionStatus.active } else m),
    activeMissionId := some id }

/-- `handleCancelMission` (lines 566-569). -/
def handleCancelMission (id : String) (s : AppState) : AppState :=
  { s with
    missions := s.missions.map
      (fun m => if m.id = id then { m with status := MissionStatus.pending } else m),
    activeMissionId := Option.none }

/-- `handleCompleteMission` (lines 571-578): when a mission with this id
exists, append a log entry `{date: today, title}` and mark it completed at
`now`; in every case clear `activeMissionId`. -/
def handleCompleteMission (today : String) (now : Nat) (id : String)
    (s : AppState) : AppState :=
  match s.missions.find? (fun m => decide (m.id = id)) with
  | some mission =>
    { s with
      missionLogs := s.missionLogs ++ [{ date := today, title := mission.title }],
      missions := s.missions.map
        (fun m =>
          if m.id = id then { m with status := MissionStatus.completed, completedAt := some now }
          else m),
      activeMissionId := Option.none }
  | Option.none => { s with activeMissionId := Option.none }

/-- `handleSelectSticker` (lines 580-588), the sticker-award action: a no-op
when a positive-count entry for today exists, otherwise append
`{date: today, count: 1, stickerType: type}`.  (The confetti flag and the
fire-and-forget voice call are rendering-only and not modelled.) -/
def handleSelectSticker (today : String) (ty : StickerType) (s : AppState) : AppState :=
  if s.stickers.any (fun e => decide (e.date = today ∧ 0 < e.count)) then s
  else
    { s with
      stickers := s.stickers ++
        [{ date := today, count := 1, isBonusUsed := Option.none, stickerType := some ty }] }

/-- The number of entries of a sticker collection with a given date and a
positive count (the eligibility/idempotence criterion of line 582). -/
def countPosOn (d : String) (l : List StickerDay) : Nat :=
  (l.filter (fun e => decide (e.date = d ∧ 0 < e.count))).length

/-- `stickerMap.has(d)` of the bonus gap-fill loop: whether some entry of the
collection has this date (line 593: the map is keyed by `date`). -/
def hasDate (stickers : List StickerDay) (d : String) : Bool :=
  stickers.any (fun e => e.date == d)

/-- The `for` loop of `handleUseBonusSticker` (lines 595-598): the first day
number `1 ≤ i ≤ daysInMonth y m` whose date string has no entry. -/
def firstEmptyDay (stickers : List StickerDay) (y m : Nat) : Option Nat :=
  (daysFrom 1 (daysInMonth y m)).find? (fun i => !hasDate stickers (dateStr y m i))

/-- `handleUseBonusSticker` (lines 590-603): a no-op when the bonus balance
is 0; otherwise find the earliest empty day of the current month, and — when
one exists and the user confirms — decrement the balance and append
`{date, count: 1, isBonusUsed: true, stickerType: 'star'}` for it. -/
def handleUseBonusSticker (confirmAns : Bool) (s : AppState) : AppState :=
  if s.bonusStickers ≤ 0 then s
  else
    let ym := parseMonthId s.currentMonthId
    match firstEmptyDay s.stickers ym.1 ym.2 with
    | some i =>
      if confirmAns then
        { s with
          bonusStickers := s.bonusStickers - 1,
          stickers := s.stickers ++
            [{ date := dateStr ym.1 ym.2 i, count := 1,
               isBonusUsed := some true, stickerType := some StickerType.star }] }
      else s
    | Option.none => s

/-- `localStorage.getItem(PIN_KEY) || DEFAULT_PIN` (line 621): JS `||` takes
the default both for an absent key and for a stored empty string. -/
def effectivePin (s : AppState) : String :=
  match s.storedPin with
  | some p => if p = "" then DEFAULT_PIN else p
  | Option.none => DEFAULT_PIN

/-- `handlePinInput` (lines 620-645): append the pressed digit to the
buffer, then branch on mode and PIN-change step exactly as the source does.
The 500 ms delayed buffer clear after a failed unlock (lines 630 and 636) is
an asynchronous effect and is not modelled: in those branches the buffer
keeps the failed 4-digit input, and the mode is unchanged. -/
def handlePinInput (digit today : String) (now : Nat) (s₀ : AppState) : AppState :=
  let savedPin := effectivePin s₀
  let nextInput := s₀.pinInput ++ digit
  let s := { s₀ with pinInput := nextInput }
  if s.mode = Mode.timeWarpAuth then
    if nextInput = savedPin then
      let s' :=
        match s.activeMissionId with
        | some id => if id = "" then s else handleCompleteMission today now id s
        | Option.none => s
      { s' with mode := Mode.child, pinInput := "" }
    else s
  else if s.pinChangeStep = PinChangeStep.none then
    if nextInput = savedPin then { s with mode := Mode.parent, pinInput := "" } else s
  else if s.pinChangeStep = PinChangeStep.current then
    if nextInput = savedPin then { s with pinChangeStep := PinChangeStep.new, pinInput := "" }
    else if nextInput.length = 4 then { s with pinInput := "" }
    else s
  else if s.pinChangeStep = PinChangeStep.new then
    if nextInput.length = 4 then
      { s with tempNewPin := nextInput, pinChangeStep := PinChangeStep.verify, pinInput := "" }
    else s
  else if s.pinChangeStep = PinChangeStep.verify then
    if nextInput.length = 4 then
      if nextInput = s.tempNewPin then
        { s with pinChangeStep := PinChangeStep.confirm, pinInput := "" }
      else { s with pinChangeStep := PinChangeStep.new, pinInput := "" }
    else s
  else s

/-- Feed a sequence of digit presses to `handlePinInput` in order. -/
def runDigits (today : String) (now : Nat) (digits : List String) (s : AppState) : AppState :=
  digits.foldl (fun st d => handlePinInput d today now st) s

/-- The digit-press sequence spelling out a string. -/
def pinDigits (s : String) : List String :=
  s.toList.map (fun c => String.mk [c])

/-! ## Concrete fixtures for the examples, counterexamples and witnesses -/

/-- A fresh application state: the `useState` initial values of `App`
(lines 406-430), with `currentMonthId` fixed to `"2026-10"` and no stored
PIN (so the factory default `"1234"` applies). -/
def baseState : AppState :=
  { mode := Mode.child, pinInput := "", missions := [], stickers := [],
    bonusStickers := 0, archives := [], currentMonthId := "2026-10",
    activeMissionId := Option.none, missionLogs := [],
    pinChangeStep := PinChangeStep.none, tempNewPin := "",
    storedPin := Option.none }

/-- A mission currently `active`. -/
def missionA : Mission :=
  { id := "a", title := "Read", durationMinutes := 10, reward := "Candy",
    status := MissionStatus.active, createdAt := 0, completedAt := Option.none }

/-- A second mission, still `pending`. -/
def missionB : Mission :=
  { id := "b", title := "Math", durationMinutes := 15, reward := "TV",
    status := MissionStatus.pending, createdAt := 0, completedAt := Option.none }

/-- A state in which mission `"a"` is the single active mission. -/
def stateC1 : AppState :=
  { baseState with missions := [missionA, missionB], activeMissionId := some "a" }

/-- A state in which the single mission `"a"` is active. -/
def stateC9 : AppState :=
  { baseState with missions := [missionA], activeMissionId := some "a" }

/-- The spec's example tier table `[{0,"A"},{5,"B"},{10,"C"}]` as a
text-type configuration. -/
def exampleCfgText : RewardConfig :=
  { type := RewardType.text,
    steps := [⟨0, "A"⟩, ⟨5, "B"⟩, ⟨10, "C"⟩] }

/-- The same tier table as a currency-type configuration (the texts are
non-numeric, so the currency formatting of line 312 does not fire). -/
def exampleCfgCurrency : RewardConfig :=
  { type := RewardType.currency,
    steps := [⟨0, "A"⟩, ⟨5, "B"⟩, ⟨10, "C"⟩] }

/-- A configuration whose steps are stored in descending-threshold order
(reachable by editing a step's threshold in the parent UI, line 852, which
does not re-sort): the lowest-threshold step `{5,"B"}` is not `steps[0]`. -/
def cfgC4 : RewardConfig :=
  { type := RewardType.text,
    steps := [⟨10, "C"⟩, ⟨5, "B"⟩] }

/-- PIN-change flow about to start: the auth screen with
`pinChangeStep = 'current'` and no stored PIN (current PIN `"1234"`). -/
def stateC2 : AppState :=
  { baseState with mode := Mode.auth, pinChangeStep := PinChangeStep.current }

/-- `stateC2` after the completed change flow: current `"1234"`,
new `"5678"`, verify `"5678"`, digit by digit. -/
def stateC2done : AppState :=
  runDigits "2026-10-11" 0 (pinDigits "123456785678") stateC2

/-- `stateC2done` after the back/cancel action (line 749), which returns the
machine to the idle unlock state. -/
def stateC2idle : AppState :=
  { stateC2done with pinChangeStep := PinChangeStep.none, pinInput := "" }

/-- Mid-verification state of the PIN-change flow: the candidate `"5678"`
is stashed and the first three digits of the mismatching resubmission
`"5679"` are already in the buffer. -/
def stateC3 : AppState :=
  { baseState with
    mode := Mode.auth, pinChangeStep := PinChangeStep.verify,
    tempNewPin := "5678", pinInput := "567" }

/-- A October-2026 board with day 1 filled and a bonus balance of 2. -/
def stateC6 : AppState :=
  { baseState with
    bonusStickers := 2,
    stickers := [{ date := "2026-10-01", count := 1, isBonusUsed := Option.none,
                   stickerType := some StickerType.star }] }

/-! ## Helper lemmas: the descending sort, `find?`, and day ranges -/

theorem mem_insertDesc {a e : RewardStep} {l : List RewardStep} :
    a ∈ insertDesc e l ↔ a = e ∨ a ∈ l := by
  induction l with
  | nil => simp [insertDesc]
  | cons x xs ih =>
    by_cases h : x.stickers < e.stickers
    · rw [insertDesc, if_pos h]
      simp [List.mem_cons, or_assoc]
    · rw [insertDesc, if_neg h]
      simp only [List.mem_cons, ih]
      tauto

theorem pairwise_insertDesc {e : RewardStep} {l : List RewardStep}
    (h : l.Pairwise (fun a b => b.stickers ≤ a.stickers)) :
    (insertDesc e l).Pairwise (fun a b => b.stickers ≤ a.stickers) := by
  induction l with
  | nil => simp [insertDesc]
  | cons x xs ih =>
    rcases List.pairwise_cons.mp h with ⟨hx, hxs⟩
    by_cases hlt : x.stickers < e.stickers
    · rw [insertDesc, if_pos hlt]
      refine List.pairwise_cons.mpr ⟨?_, h⟩
      intro b hb
      rcases List.mem_cons.mp hb with rfl | hb
      · exact Nat.le_of_lt hlt
      · exact Nat.le_trans (hx b hb) (Nat.le_of_lt hlt)
    · rw [insertDesc, if_neg hlt]
      refine List.pairwise_cons.mpr ⟨?_, ih hxs⟩
      intro b hb
      rcases mem_insertDesc.mp hb with rfl | hb
      · exact Nat.le_of_not_lt hlt
      · exact hx b hb

theorem mem_sortStepsDesc {a : RewardStep} {l : List RewardStep} :
    a ∈ sortStepsDesc l ↔ a ∈ l := by
  induction l with
  | nil => simp [sortStepsDesc]
  | cons x xs ih =>
    show a ∈ insertDesc x (sortStepsDesc xs) ↔ _
    rw [mem_insertDesc, ih]
    simp [List.mem_cons]

theorem pairwise_sortStepsDesc (l : List RewardStep) :
    (sortStepsDesc l).Pairwise (fun a b => b.stickers ≤ a.stickers) := by
  induction l with
  | nil => exact List.Pairwise.nil
  | cons x xs ih => exact pairwise_insertDesc ih

/-- In a list sorted by descending threshold, the first step satisfying a
predicate has the greatest threshold among the steps satisfying it. -/
theorem find?_desc_max {p : RewardStep → Bool} {l : List RewardStep} {x : RewardStep}
    (hl : l.Pairwise (fun a b => b.stickers ≤ a.stickers)) (hx : l.find? p = some x) :
    x ∈ l ∧ p x = true ∧ ∀ y ∈ l, p y = true → y.stickers ≤ x.stickers := by
  induction l with
  | nil => simp [List.find?] at hx
  | cons a t ih =>
    rcases List.pairwise_cons.mp hl with ⟨ha, ht⟩
    by_cases hpa : p a = true
    · rw [List.find?_cons_of_pos _ hpa, Option.some.injEq] at hx
      subst hx
      refine ⟨List.mem_cons_self _ _, hpa, ?_⟩
      intro y hy _
      rcases List.mem_cons.mp hy with rfl | hy
      · exact Nat.le_refl _
      · exact ha y hy
    · rw [List.find?_cons_of_neg _ hpa] at hx
      obtain ⟨h1, h2, h3⟩ := ih ht hx
      refine ⟨List.mem_cons_of_mem _ h1, h2, ?_⟩
      intro y hy hpy
      rcases List.mem_cons.mp hy with rfl | hy
      · exact absurd hpy hpa
      · exact h3 y hy hpy

theorem mem_daysFrom : ∀ {n start i : Nat}, i ∈ daysFrom start n ↔ start ≤ i ∧ i < start + n := by
  intro n
  induction n with
  | zero => intro start i; simp [daysFrom]
  | succ n ih =>
    intro start i
    rw [daysFrom, List.mem_cons, ih]
    omega

/-- A successful `find?` over `[start, …, start+n-1]` returns the least
index satisfying the predicate. -/
theorem daysFrom_find?_some {p : Nat → Bool} :
    ∀ {n start j : Nat}, (daysFrom start n).find? p = some j →
      p j = true ∧ start ≤ j ∧ j < start + n ∧ ∀ k, start ≤ k → k < j → p k = false := by
  intro n
  induction n with
  | zero => intro start j h; simp [daysFrom, List.find?] at h
  | succ n ih =>
    intro start j h
    rw [daysFrom] at h
    by_cases hp : p start = true
    · rw [List.find?_cons_of_pos _ hp, Option.some.injEq] at h
      subst h
      exact ⟨hp, Nat.le_refl _, by omega, fun k hk1 hk2 => absurd hk1 (by omega)⟩
    · rw [List.find?_cons_of_neg _ hp] at h
      obtain ⟨h1, h2, h3, h4⟩ := ih h
      refine ⟨h1, by omega, by omega, ?_⟩
      intro k hk1 hk2
      rcases Nat.eq_or_lt_of_le hk1 with rfl | hlt
      · exact Bool.not_eq_true _ ▸ (by simpa using hp)
      · exact h4 k hlt hk2

theorem daysFrom_find?_isSome {p : Nat → Bool} :
    ∀ {n start i : Nat}, start ≤ i → i < start + n → p i = true →
      ((daysFrom start n).find? p).isSome = true := by
  intro n
  induction n with
  | zero => intro start i h1 h2 _; omega
  | succ n ih =>
    intro start i h1 h2 hp
    rw [daysFrom]
    by_cases hps : p start = true
    · rw [List.find?_cons_of_pos _ hps]; rfl
    · rw [List.find?_cons_of_neg _ hps]
      have hne : i ≠ start := fun he => hps (he ▸ hp)
      exact ih (by omega) (by omega) hp

/-! ## Claim theorems -/

/-- C1 counterexample: in `stateC1` exactly one mission (`"a"`) is active,
yet `start("b")` is not a no-op — afterwards two missions are active and the
active-mission pointer has changed to `"b"`. -/
theorem C1_start_counterexample :
    (stateC1.missions.filter (fun m => decide (m.status = MissionStatus.active))).length = 1 ∧
    ((handleStartMission "b" stateC1).missions.filter
        (fun m => decide (m.status = MissionStatus.active))).length = 2 ∧
    (handleStartMission "b" stateC1).activeMissionId ≠ stateC1.activeMissionId := by
  decide

/-- C1 (amended): `handleStartMission` has no guard whatsoever: when some
mission `m1` is already active and `start(id)` targets a different mission
`m2`, the old active mission stays active, the target also becomes active,
and the pointer moves to `id` — the manager itself does not enforce the
at-most-one-active invariant; only the UI (which hides start buttons while
a mission is active) prevents the double activation. -/
theorem C1_start_unguarded (s : AppState) (id : String) (m1 m2 : Mission)
    (h1 : m1 ∈ s.missions) (hact : m1.status = MissionStatus.active) (hne : m1.id ≠ id)
    (h2 : m2 ∈ s.missions) (hid : m2.id = id) :
    m1 ∈ (handleStartMission id s).missions ∧
    { m2 with status := MissionStatus.active } ∈ (handleStartMission id s).missions ∧
    m1.status = MissionStatus.active ∧ m1.id ≠ id ∧
    (handleStartMission id s).activeMissionId = some id := by
  refine ⟨?_, ?_, hact, hne, rfl⟩
  · exact List.mem_map.mpr ⟨m1, h1, by rw [if_neg hne]⟩
  · exact List.mem_map.mpr ⟨m2, h2, by rw [if_pos hid]⟩

/-- C1 witness: the amended statement instantiated at `stateC1`. -/
theorem C1_start_unguarded_witness :
    (missionA ∈ stateC1.missions ∧ missionA.status = MissionStatus.active ∧
     missionA.id ≠ "b" ∧ missionB ∈ stateC1.missions ∧ missionB.id = "b") ∧
    (missionA ∈ (handleStartMission "b" stateC1).missions ∧
     { missionB with status := MissionStatus.active } ∈ (handleStartMission "b" stateC1).missions ∧
     missionA.status = MissionStatus.active ∧ missionA.id ≠ "b" ∧
     (handleStartMission "b" stateC1).activeMissionId = some "b") :=
  ⟨by decide, C1_start_unguarded stateC1 "b" missionA missionB (by decide) (by decide)
      (by decide) (by decide) (by decide)⟩

/-- C7: sticker award is idempotent — a second `award` on the same day is a
no-op (whatever sticker type it asks for), and a state with at most one
positive-count entry for today still has at most one after an award. -/
theorem C7_award_idempotent (today : String) (ty1 ty2 : StickerType) (s : AppState)
    (h : countPosOn today s.stickers ≤ 1) :
    handleSelectSticker today ty2 (handleSelectSticker today ty1 s) =
      handleSelectSticker today ty1 s ∧
    countPosOn today (handleSelectSticker today ty1 s).stickers ≤ 1 := by
  by_cases hg : s.stickers.any (fun e => decide (e.date = today ∧ 0 < e.count)) = true
  · have h1 : handleSelectSticker today ty1 s = s := by
      rw [handleSelectSticker, if_pos hg]
    rw [h1, handleSelectSticker, if_pos hg]
    exact ⟨rfl, h⟩
  · have hg' : s.stickers.any (fun e => decide (e.date = today ∧ 0 < e.count)) = false := by
      simpa using hg
    have h1 : handleSelectSticker today ty1 s =
        { s with stickers := s.stickers ++
            [{ date := today, count := 1, isBonusUsed := Option.none,
               stickerType := some ty1 }] } := by
      rw [handleSelectSticker, if_neg hg]
    have hg2 : ((handleSelectSticker today ty1 s).stickers).any
        (fun e => decide (e.date = today ∧ 0 < e.count)) = true := by
      rw [h1, List.any_append]
      simp
    have hempty : s.stickers.filter (fun e => decide (e.date = today ∧ 0 < e.count)) = [] := by
      rw [List.filter_eq_nil_iff]
      intro e he
      simpa using List.any_eq_false.mp hg' e he
    constructor
    · rw [handleSelectSticker, if_pos hg2]
    · rw [h1]
      simp only [countPosOn, List.filter_append, hempty, List.nil_append]
      exact Nat.le_trans (List.length_filter_le _ _) (Nat.le_of_eq rfl)

/-- C7 witness: the idempotence statement instantiated at the fresh state. -/
theorem C7_award_idempotent_witness :
    countPosOn "2026-10-11" baseState.stickers ≤ 1 ∧
    (handleSelectSticker "2026-10-11" StickerType.heart
        (handleSelectSticker "2026-10-11" StickerType.star baseState) =
      handleSelectSticker "2026-10-11" StickerType.star baseState ∧
     countPosOn "2026-10-11"
        (handleSelectSticker "2026-10-11" StickerType.star baseState).stickers ≤ 1) :=
  ⟨by decide, C7_award_idempotent "2026-10-11" StickerType.star StickerType.heart baseState
      (by decide)⟩

/-- C8: `rollover()` (confirmed by the user) prepends exactly one archive
entry carrying the pre-rollover month id and the sum of the pre-rollover
sticker counts, leaves every existing archive entry as it was, replaces the
current month id by the one derived from the current date, and clears the
sticker collection and the mission logs. -/
theorem C8_rollover (s : AppState) (nowMonthId : String) (now : Nat) :
    (handleStartNewMonth true nowMonthId now s).archives =
      { monthId := s.currentMonthId, stickers := s.stickers,
        totalStickers := sumCounts s.stickers, archivedAt := now } :: s.archives ∧
    (handleStartNewMonth true nowMonthId now s).currentMonthId = nowMonthId ∧
    (handleStartNewMonth true nowMonthId now s).stickers = [] ∧
    (handleStartNewMonth true nowMonthId now s).missionLogs = [] :=
  ⟨rfl, rfl, rfl, rfl⟩

/-- C9 counterexample: mission `"a"` is the active mission of `stateC9`,
and `delete("a")` removes it, but — against the claim — the active-mission
pointer still holds `"a"` instead of being cleared. -/
theorem C9_delete_counterexample :
    stateC9.activeMissionId = some "a" ∧ missionA.id = "a" ∧
    (handleDeleteMission "a" stateC9).missions = [] ∧
    (handleDeleteMission "a" stateC9).activeMissionId = some "a" ∧
    some "a" ≠ (Option.none : Option String) := by
  decide

/-- C9 (amended): `delete(id)` removes every mission with that id and
leaves the active-mission pointer untouched — even when the deleted mission
was the active one, so a stale pointer remains (the UI dereferences it by
lookup, which then finds nothing). -/
theorem C9_delete_amended (s : AppState) (id : String) :
    (∀ m : Mission, m ∈ (handleDeleteMission id s).missions ↔ m ∈ s.missions ∧ m.id ≠ id) ∧
    (handleDeleteMission id s).activeMissionId = s.activeMissionId := by
  constructor
  · intro m
    simp [handleDeleteMission, List.mem_filter]
  · rfl

/-- C10: completing an id that matches no mission leaves the mission list
and the mission logs unchanged but still clears the active-mission
pointer. -/
theorem C10_complete_unknown_id (today : String) (now : Nat) (id : String) (s : AppState)
    (h : ∀ m ∈ s.missions, m.id ≠ id) :
    handleCompleteMission today now id s = { s with activeMissionId := Option.none } := by
  have hfind : s.missions.find? (fun m => decide (m.id = id)) = Option.none := by
    rw [List.find?_eq_none]
    intro m hm
    simpa using h m hm
  rw [handleCompleteMission, hfind]

/-- C10 witness: completing the unknown id `"zzz"` on `stateC9`. -/
theorem C10_complete_unknown_id_witness :
    (∀ m ∈ stateC9.missions, m.id ≠ "zzz") ∧
    handleCompleteMission "2026-10-11" 0 "zzz" stateC9 =
      { stateC9 with activeMissionId := Option.none } :=
  ⟨by decide, C10_complete_unknown_id "2026-10-11" 0 "zzz" stateC9 (by decide)⟩

/-- C2 (code bug): driving the PIN-change flow to completion with
current `"1234"`, new `"5678"`, verify `"5678"` reaches the `confirm` step
with the candidate stashed — but the stored secret is never written
(`handlePinInput` contains no `setItem(PIN_KEY, …)`), so after returning to
the idle unlock state a 4-digit attempt with the new PIN `"5678"` does not
unlock parent mode while the old PIN `"1234"` still does, the opposite of
the claimed round-trip. -/
theorem C2_pin_change_not_committed :
    stateC2done.pinChangeStep = PinChangeStep.confirm ∧
    stateC2done.tempNewPin = "5678" ∧
    stateC2done.storedPin = stateC2.storedPin ∧
    effectivePin stateC2done = "1234" ∧
    (runDigits "2026-10-11" 0 (pinDigits "5678") stateC2idle).mode ≠ Mode.parent ∧
    (runDigits "2026-10-11" 0 (pinDigits "1234") stateC2idle).mode = Mode.parent := by
  decide

/-- C3 counterexample: in `stateC3` (candidate `"5678"` stashed, buffer
`"567"`) the mismatching fourth digit `"9"` reverts the flow to the
`new` step, but — against the claim — the stashed candidate is not
discarded: `tempNewPin` still holds `"5678"`. -/
theorem C3_verify_mismatch_counterexample :
    (handlePinInput "9" "2026-10-11" 0 stateC3).pinChangeStep = PinChangeStep.new ∧
    (handlePinInput "9" "2026-10-11" 0 stateC3).tempNewPin = "5678" ∧
    (handlePinInput "9" "2026-10-11" 0 stateC3).tempNewPin ≠ "" := by
  decide

/-- C3 (amended): on a 4-digit mismatch in the `verify` step the flow
reverts to the `new` step with a cleared buffer and an unchanged stored
PIN, but the stashed candidate is NOT discarded — `tempNewPin` keeps its
value (it is only overwritten by the next 4-digit entry of the `new`
step, so the stale stash is never compared again). -/
theorem C3_verify_mismatch_amended (s : AppState) (digit today : String) (now : Nat)
    (hmode : ¬ s.mode = Mode.timeWarpAuth) (hstep : s.pinChangeStep = PinChangeStep.verify)
    (hlen : (s.pinInput ++ digit).length = 4) (hne : ¬ s.pinInput ++ digit = s.tempNewPin) :
    (handlePinInput digit today now s).pinChangeStep = PinChangeStep.new ∧
    (handlePinInput digit today now s).pinInput = "" ∧
    (handlePinInput digit today now s).storedPin = s.storedPin ∧
    (handlePinInput digit today now s).tempNewPin = s.tempNewPin := by
  simp [handlePinInput, hmode, hstep, hlen, hne]

/-- C3 witness: the amended statement instantiated at `stateC3`. -/
theorem C3_verify_mismatch_amended_witness :
    (¬ stateC3.mode = Mode.timeWarpAuth ∧ stateC3.pinChangeStep = PinChangeStep.verify ∧
     (stateC3.pinInput ++ "9").length = 4 ∧ ¬ stateC3.pinInput ++ "9" = stateC3.tempNewPin) ∧
    ((handlePinInput "9" "2026-10-11" 0 stateC3).pinChangeStep = PinChangeStep.new ∧
     (handlePinInput "9" "2026-10-11" 0 stateC3).pinInput = "" ∧
     (handlePinInput "9" "2026-10-11" 0 stateC3).storedPin = stateC3.storedPin ∧
     (handlePinInput "9" "2026-10-11" 0 stateC3).tempNewPin = stateC3.tempNewPin) :=
  ⟨by decide, C3_verify_mismatch_amended stateC3 "9" "2026-10-11" 0 (by decide) (by decide)
      (by decide) (by decide)⟩

/-- C4 counterexample: in `cfgC4` the steps are stored as
`[{10,"C"},{5,"B"}]` and the total 3 is below both thresholds; the claimed
result is the lowest-threshold step's text `"B"`, but the code returns
`steps[0]`'s text `"C"` — the fallback depends on the stored order. -/
theorem C4_floor_counterexample :
    (3 < 10 ∧ 3 < 5) ∧ getCurrentReward 3 cfgC4 = "C" ∧ getCurrentReward 3 cfgC4 ≠ "B" := by
  decide

/-- C4 (amended): when the total is strictly below every configured
threshold, `getCurrentReward` falls back to the text of the FIRST STORED
step (`steps[0]?.text || '0'`), not the lowest-threshold step; the two
agree only when a lowest-threshold step happens to be stored first (as the
add-step path of `setRewardConfig` keeps it, but threshold edits do not). -/
theorem C4_floor_amended (total : Nat) (cfg : RewardConfig) (s0 : RewardStep)
    (rest : List RewardStep) (hty : cfg.type = RewardType.text)
    (hsteps : cfg.steps = s0 :: rest)
    (hbelow : ∀ t ∈ cfg.steps, total < t.stickers) :
    getCurrentReward total cfg = (if s0.text = "" then "0" else s0.text) := by
  have hfind : (sortStepsDesc cfg.steps).find? (fun st => decide (st.stickers ≤ total))
      = Option.none := by
    rw [List.find?_eq_none]
    intro t ht
    have hlt := hbelow t (mem_sortStepsDesc.mp ht)
    simp
    omega
  have hsel : selectText total cfg = (if s0.text = "" then "0" else s0.text) := by
    simp only [selectText, hfind]
    rw [hsteps]
  have hne : ¬ cfg.steps.length = 0 := by rw [hsteps]; simp
  have hcond : ¬ (cfg.type = RewardType.currency ∧ isNumericStr (selectText total cfg) = true) := by
    intro hc
    rw [hty] at hc
    exact absurd hc.1 (by decide)
  rw [getCurrentReward, if_neg hne, if_neg hcond, hsel]

/-- C4 witness: the amended fallback at `cfgC4` with total 3. -/
theorem C4_floor_amended_witness :
    (cfgC4.type = RewardType.text ∧ cfgC4.steps = ⟨10, "C"⟩ :: [⟨5, "B"⟩] ∧
     ∀ t ∈ cfgC4.steps, 3 < t.stickers) ∧
    getCurrentReward 3 cfgC4 = (if ("C" : String) = "" then "0" else "C") :=
  ⟨by decide, C4_floor_amended 3 cfgC4 ⟨10, "C"⟩ [⟨5, "B"⟩] rfl rfl (by decide)⟩

/-- C5: `getCurrentReward` returns the sentinel for an empty step list;
for a text-type configuration whose unique highest qualifying step is `s`
(every other qualifying step has a strictly smaller threshold) it returns
`s.text`; and on the spec's example table `[{0,"A"},{5,"B"},{10,"C"}]` the
totals 0, 4, 5, 12 yield `"A"`, `"A"`, `"B"`, `"C"` — under both the text
and the currency configuration type (the texts are non-numeric, so the
currency formatting of line 312 leaves them as they are). -/
theorem C5_reward_evaluation :
    (∀ (total : Nat) (cfg : RewardConfig), cfg.steps = [] →
        getCurrentReward total cfg = notConfigured) ∧
    (∀ (total : Nat) (cfg : RewardConfig) (s : RewardStep),
        cfg.type = RewardType.text → s ∈ cfg.steps → s.stickers ≤ total →
        (∀ t ∈ cfg.steps, t.stickers ≤ total → t ≠ s → t.stickers < s.stickers) →
        getCurrentReward total cfg = s.text) ∧
    (getCurrentReward 0 exampleCfgText = "A" ∧ getCurrentReward 4 exampleCfgText = "A" ∧
     getCurrentReward 5 exampleCfgText = "B" ∧ getCurrentReward 12 exampleCfgText = "C" ∧
     getCurrentReward 0 exampleCfgCurrency = "A" ∧ getCurrentReward 4 exampleCfgCurrency = "A" ∧
     getCurrentReward 5 exampleCfgCurrency = "B" ∧ getCurrentReward 12 exampleCfgCurrency = "C") := by
  refine ⟨?_, ?_, by decide⟩
  · intro total cfg h
    rw [getCurrentReward, if_pos (by rw [h]; rfl)]
  · intro total cfg s hty hmem hst hmax
    have hsel : selectText total cfg = s.text := by
      cases hfind : (sortStepsDesc cfg.steps).find? (fun st => decide (st.stickers ≤ total)) with
      | none =>
        exfalso
        have hns := List.find?_eq_none.mp hfind s (mem_sortStepsDesc.mpr hmem)
        simp [hst] at hns
      | some x =>
        obtain ⟨hxmem, hpx, hxmax⟩ := find?_desc_max (pairwise_sortStepsDesc _) hfind
        have hxsteps : x ∈ cfg.steps := mem_sortStepsDesc.mp hxmem
        have hxq : x.stickers ≤ total := by simpa using hpx
        have hsx : s.stickers ≤ x.stickers :=
          hxmax s (mem_sortStepsDesc.mpr hmem) (by simpa using hst)
        by_cases hxs : x = s
        · subst hxs
          simp only [selectText, hfind]
        · have hlt := hmax x hxsteps hxq hxs
          omega
    have hne : ¬ cfg.steps.length = 0 := by
      intro h0
      rw [List.length_eq_zero] at h0
      exact List.ne_nil_of_mem hmem h0
    have hcond : ¬ (cfg.type = RewardType.currency ∧
        isNumericStr (selectText total cfg) = true) := by
      intro hc
      rw [hty] at hc
      exact absurd hc.1 (by decide)
    rw [getCurrentReward, if_neg hne, if_neg hcond, hsel]

/-- C6: with a positive bonus balance, `useBonus()` (confirmed by the
user) fills exactly the earliest empty day of the current month — it
appends the single entry `{date, count: 1, isBonusUsed: true, stickerType:
star}` for the least day without an entry and decrements the balance by
one — and when every day of the month already has an entry it is a
complete no-op. -/
theorem C6_bonus_gapfill (s : AppState) (y m : Nat)
    (hbonus : 0 < s.bonusStickers)
    (hym : parseMonthId s.currentMonthId = (y, m)) :
    ((∀ k, 1 ≤ k → k ≤ daysInMonth y m → hasDate s.stickers (dateStr y m k) = true) →
        handleUseBonusSticker true s = s) ∧
    (∀ i, 1 ≤ i → i ≤ daysInMonth y m → hasDate s.stickers (dateStr y m i) = false →
        ∃ j, 1 ≤ j ∧ j ≤ daysInMonth y m ∧ hasDate s.stickers (dateStr y m j) = false ∧
          (∀ k, 1 ≤ k → k < j → hasDate s.stickers (dateStr y m k) = true) ∧
          handleUseBonusSticker true s =
            { s with
              bonusStickers := s.bonusStickers - 1,
              stickers := s.stickers ++
                [{ date := dateStr y m j, count := 1, isBonusUsed := some true,
                   stickerType := some StickerType.star }] }) := by
  have hb : ¬ s.bonusStickers ≤ 0 := by omega
  constructor
  · intro hfull
    have hnone : firstEmptyDay s.stickers y m = Option.none := by
      rw [firstEmptyDay, List.find?_eq_none]
      intro k hk
      have hk' := mem_daysFrom.mp hk
      have hfk := hfull k hk'.1 (by omega)
      simp [hfk]
    rw [handleUseBonusSticker, if_neg hb]
    simp only [hym, hnone]
  · intro i hi1 hi2 hie
    have hp : (fun k => !hasDate s.stickers (dateStr y m k)) i = true := by simp [hie]
    have hsome := @daysFrom_find?_isSome (fun k => !hasDate s.stickers (dateStr y m k))
        (daysInMonth y m) 1 i hi1 (by omega) hp
    cases hfind : firstEmptyDay s.stickers y m with
    | none =>
      exfalso
      have hfind2 : (daysFrom 1 (daysInMonth y m)).find?
          (fun k => !hasDate s.stickers (dateStr y m k)) = Option.none := hfind
      rw [hfind2] at hsome
      simp at hsome
    | some j =>
      have hfind' : (daysFrom 1 (daysInMonth y m)).find?
          (fun k => !hasDate s.stickers (dateStr y m k)) = some j := hfind
      obtain ⟨hpj, hj1, hj2, hmin⟩ := daysFrom_find?_some hfind'
      refine ⟨j, hj1, by omega, by simpa using hpj, ?_, ?_⟩
      · intro k hk1 hk2
        have hfk := hmin k hk1 hk2
        simpa using hfk
      · rw [handleUseBonusSticker, if_neg hb]
        simp only [hym, hfind, if_true]

/-- C6 witness: the gap-fill statement instantiated at `stateC6`
(October 2026, day 1 filled, bonus balance 2). -/
theorem C6_bonus_gapfill_witness :
    (0 < stateC6.bonusStickers ∧ parseMonthId stateC6.currentMonthId = (2026, 10)) ∧
    (((∀ k, 1 ≤ k → k ≤ daysInMonth 2026 10 →
          hasDate stateC6.stickers (dateStr 2026 10 k) = true) →
        handleUseBonusSticker true stateC6 = stateC6) ∧
     (∀ i, 1 ≤ i → i ≤ daysInMonth 2026 10 →
        hasDate stateC6.stickers (dateStr 2026 10 i) = false →
        ∃ j, 1 ≤ j ∧ j ≤ daysInMonth 2026 10 ∧
          hasDate stateC6.stickers (dateStr 2026 10 j) = false ∧
          (∀ k, 1 ≤ k → k < j → hasDate stateC6.stickers (dateStr 2026 10 k) = true) ∧
          handleUseBonusSticker true stateC6 =
            { stateC6 with
              bonusStickers := stateC6.bonusStickers - 1,
              stickers := stateC6.stickers ++
                [{ date := dateStr 2026 10 j, count := 1, isBonusUsed := some true,
                   stickerType := some StickerType.star }] })) :=
  ⟨⟨by decide, by decide⟩, C6_bonus_gapfill stateC6 2026 10 (by decide) (by decide)⟩

end MissionMaster
